import Mathlib

/-!
Shallow embedding of the storage resource-lifecycle layer of the `higo`
repository (package `storage` and its concrete adapters), together with
proofs about the reconnect/backoff decorator, the error-classification
heuristic, the metrics decorator, the builder/unwrap pair, the registration
manager and the adapter connection state machine.

Go `error` values are modelled by `Option GoError` (`none` = `nil`).
Blocking waits are not observable in the embedding; a wait is modelled only
through the cancellation check performed during it (`ctxDone`), exactly as
in the `select` statement of `Reconnectable.connectWithRetry`.  The
exponential-backoff interval arithmetic influences only the (unobservable)
duration of those waits, never the control flow, so it is not carried as
state.
-/

namespace Higo

/-- Go error values as produced by this package: `new msg` models
`errors.New(msg)` (and any opaque external error with message `msg`);
`wrapf pre w` models `fmt.Errorf(pre ++ ": %w", e)` where `w = some e`,
or the same format string applied to a `nil` operand when `w = none`. -/
inductive GoError where
  | new (msg : String)
  | wrapf (pre : String) (wrapped : Option GoError)
deriving Repr

/-- The `Error()` message of a Go error.  `fmt.Errorf` renders a `nil`
operand of the `%w` verb as `%!w(<nil>)`. -/
def GoError.Error : GoError → String
  | .new msg => msg
  | .wrapf pre none => pre ++ ": %!w(<nil>)"
  | .wrapf pre (some e) => pre ++ ": " ++ e.Error

/-- The `errors.Unwrap` result of a Go error: `fmt.Errorf` with one `%w`
verb wraps its operand; `errors.New` wraps nothing. -/
def GoError.unwrapped : GoError → Option GoError
  | .new _ => none
  | .wrapf _ w => w

/-- Go `strings.ToLower` restricted to ASCII (every message this package
classifies is ASCII). -/
def goToLower (s : String) : String :=
  ⟨s.data.map Char.toLower⟩

/-- Check whether `sub` is a prefix of `s` (character lists). -/
def leadsWith : List Char → List Char → Bool
  | [], _ => true
  | _ :: _, [] => false
  | c :: cs, d :: ds => c == d && leadsWith cs ds

/-- Check whether `sub` occurs contiguously inside `s` (character lists). -/
def subIn (sub : List Char) : List Char → Bool
  | [] => sub.isEmpty
  | c :: t => leadsWith sub (c :: t) || subIn sub t

/-- Go `strings.Contains(s, sub)`. -/
def strContains (s sub : String) : Bool :=
  subIn sub.data s.data

/-- The fixed keyword list of `isConnectionError` in `reconnect.go`. -/
def connKeywords : List String :=
  ["connection refused", "connection reset", "broken pipe",
   "no such host", "timeout", "eof", "closed"]

/-- Model of `isConnectionError`: `nil` is not a connection error; otherwise
the lower-cased message is matched against the fixed keyword list. -/
def isConnectionError : Option GoError → Bool
  | none => false
  | some e =>
    let msg := goToLower e.Error
    connKeywords.any (fun kw => strContains msg kw)

/-- Model of `ReconnectConfig`.  Durations are `time.Duration`
(nanoseconds, an `int64`); `MaxRetries` is a Go `int`; `Multiplier` is a
`float64`. -/
structure ReconnectConfig where
  maxRetries : Int
  initialInterval : Int
  maxInterval : Int
  multiplier : Float
deriving Repr

/-- Model of the `Reconnectable` decorator state that the embedded claims
depend on: its stored configuration. -/
structure Reconnectable where
  config : ReconnectConfig
deriving Repr

/-- Model of `NewReconnectable`: a non-positive `Multiplier` is replaced by
`2.0`; no other field is adjusted. -/
def newReconnectable (cfg : ReconnectConfig) : Reconnectable :=
  if cfg.multiplier ≤ 0 then ⟨{ cfg with multiplier := 2.0 }⟩ else ⟨cfg⟩

/-- Model of `DefaultReconnectConfig` (durations in nanoseconds). -/
def defaultReconnectConfig : ReconnectConfig :=
  ⟨5, 1000000000, 30000000000, 2.0⟩

/-- The loop body of `Reconnectable.connectWithRetry`, indexed by the Go
loop variable `attempt` and the accumulated `lastErr`.

`inner k` is the error returned by the k-th call of the wrapped `Connect`
(`none` = success); `ctxDone k` tells whether the context is found cancelled
during the backoff wait that precedes attempt `k` (waits happen only when
`attempt > 0`); `ctxErr` is the value of `ctx.Err()` then.

The result is the returned error paired with the number of calls actually
made on the wrapped `Connect` — the observable trace the claims speak of. -/
def connectWithRetryAux (inner : Nat → Option GoError) (ctxDone : Nat → Bool)
    (ctxErr : GoError) (maxRetries : Int) (attempt : Nat)
    (lastErr : Option GoError) : Option GoError × Nat :=
  if _h : (attempt : Int) ≤ maxRetries then
    if attempt > 0 && ctxDone attempt then
      (some ctxErr, attempt)
    else
      match inner attempt with
      | none => (none, attempt + 1)
      | some e =>
          connectWithRetryAux inner ctxDone ctxErr maxRetries (attempt + 1)
            (some e)
  else
    (some (.wrapf ("connect failed after " ++ toString (maxRetries + 1)
      ++ " attempts") lastErr), attempt)
termination_by (maxRetries + 1 - (attempt : Int)).toNat
decreasing_by omega

/-- Model of `Reconnectable.connectWithRetry` (also the body of
`Reconnectable.Connect`): run the loop from `attempt = 0` with no recorded
last error. -/
def connectWithRetry (cfg : ReconnectConfig) (ctxDone : Nat → Bool)
    (ctxErr : GoError) (inner : Nat → Option GoError) : Option GoError × Nat :=
  connectWithRetryAux inner ctxDone ctxErr cfg.maxRetries 0 none

/-- Observable trace of one `Reconnectable.Ping` call: whether the wrapped
resource was closed, how many connect attempts the reconnect sequence made,
whether the wrapped `Ping` was retried, and the returned error. -/
structure PingTrace where
  closedInner : Bool
  connectAttempts : Nat
  retriedPing : Bool
  result : Option GoError
deriving Repr

/-- Model of `Reconnectable.Ping`.  `innerPing1` is the error of the first
wrapped `Ping`; if it is non-nil and classified as a connection error the
wrapped resource is closed (its `Close` error is discarded), the retry
sequence of `connectWithRetry` runs, and only on reconnect success is the
wrapped `Ping` called once more (`innerPing2`); a reconnect failure is
wrapped as a ping-failed-reconnect-failed error.  A non-connection error is
returned unchanged with no close, no connect attempt and no retry. -/
def reconnectablePing (cfg : ReconnectConfig) (ctxDone : Nat → Bool)
    (ctxErr : GoError) (innerPing1 : Option GoError)
    (innerConnect : Nat → Option GoError) (innerPing2 : Option GoError) :
    PingTrace :=
  match innerPing1 with
  | none => ⟨false, 0, false, none⟩
  | some e =>
    if isConnectionError (some e) then
      let r := connectWithRetry cfg ctxDone ctxErr innerConnect
      match r.1 with
      | some reconnErr =>
          ⟨true, r.2, false,
            some (.wrapf "ping failed, reconnect failed" (some reconnErr))⟩
      | none => ⟨true, r.2, true, innerPing2⟩
    else ⟨false, 0, false, some e⟩

/-- Connection states of `storage.State` (`types.go`). -/
inductive State where
  | disconnected
  | connecting
  | connected
  | disconnecting
deriving Repr, DecidableEq

/-- Model of `State.String()`. -/
def State.toGoString : State → String
  | .disconnected => "disconnected"
  | .connecting => "connecting"
  | .connected => "connected"
  | .disconnecting => "disconnecting"

/-- Result of one call of a concrete adapter `Connect`: the returned
error, the adapter state afterwards, and whether any I/O step was
performed. -/
structure ConnectResult where
  err : Option GoError
  finalState : State
  ioAttempted : Bool
deriving Repr

/-- Model of the redis adapter `Storage.Connect` (`redis` package).  The
atomic `CompareAndSwapState(Disconnected, Connecting)` succeeds exactly
when the current state is `disconnected`; on CAS failure an invalid-state
error is returned before any I/O.  After the CAS, the I/O phase is the
optional `redisotel.InstrumentTracing` call (attempted only when a tracer
is configured, outcome `tracingRes`) followed by `client.Ping` (outcome
`pingRes`); each failure restores `disconnected`, and success stores the
client and sets `connected`. -/
def redisConnect (st : State) (hasTracer : Bool)
    (tracingRes pingRes : Option GoError) : ConnectResult :=
  if st = .disconnected then
    if hasTracer then
      match tracingRes with
      | some e =>
          ⟨some (.wrapf "redis: setup tracing failed" (some e)),
            .disconnected, true⟩
      | none =>
        match pingRes with
        | some e =>
            ⟨some (.wrapf "redis: ping failed" (some e)), .disconnected, true⟩
        | none => ⟨none, .connected, true⟩
    else
      match pingRes with
      | some e =>
          ⟨some (.wrapf "redis: ping failed" (some e)), .disconnected, true⟩
      | none => ⟨none, .connected, true⟩
  else
    ⟨some (.new "redis: invalid state for connect"), st, false⟩

/-- The decorator grammar of the `storage` package: a value of the
`Storage` interface is either one of the three decorator structs
(`Reconnectable`, `Traced`, `Metriced`, each holding the `Storage` it
wraps) or any other implementation, represented by its identity
(`base name typ`). -/
inductive Storage where
  | base (name : String) (typ : String)
  | reconnectable (inner : Storage) (cfg : ReconnectConfig)
  | traced (inner : Storage)
  | metriced (inner : Storage)
deriving Repr

/-- The `Name()` of a storage: every decorator delegates to the wrapped
storage. -/
def Storage.name : Storage → String
  | .base n _ => n
  | .reconnectable s _ => s.name
  | .traced s => s.name
  | .metriced s => s.name

/-- True exactly on the three decorator constructors — the three cases of
the type switch in the module-level `Unwrap`. -/
def Storage.isDecorator : Storage → Bool
  | .reconnectable _ _ => true
  | .traced _ => true
  | .metriced _ => true
  | .base _ _ => false

/-- Model of the module-level `Unwrap` in `builder.go`: loop on the type
switch, stepping into the wrapped storage for each of the three decorator
types, and return the first value that is none of them. -/
def unwrapStorage : Storage → Storage
  | .reconnectable s _ => unwrapStorage s
  | .traced s => unwrapStorage s
  | .metriced s => unwrapStorage s
  | .base n t => .base n t

/-- Model of the `Builder` struct: the base storage plus the three optional
decorator requests (`tracer` and `metrics` record only whether a non-nil
tracer/metrics was supplied, which is all `Build` inspects). -/
structure Builder where
  storage : Storage
  reconnect : Option ReconnectConfig
  tracer : Bool
  metrics : Bool

/-- Model of `NewBuilder`. -/
def newBuilder (s : Storage) : Builder :=
  ⟨s, none, false, false⟩

/-- Model of `Builder.WithReconnect`. -/
def Builder.withReconnect (b : Builder) (cfg : ReconnectConfig) : Builder :=
  { b with reconnect := some cfg }

/-- Model of `Builder.WithTracing` with a non-nil tracer. -/
def Builder.withTracing (b : Builder) : Builder :=
  { b with tracer := true }

/-- Model of `Builder.WithMetrics` with a non-nil metrics handle. -/
def Builder.withMetrics (b : Builder) : Builder :=
  { b with metrics := true }

/-- Model of `Builder.Build`: wrap with `Reconnectable`, then `Traced`,
then `Metriced`, each only if requested. -/
def Builder.build (b : Builder) : Storage :=
  let s := b.storage
  let s := match b.reconnect with
    | some cfg => Storage.reconnectable s cfg
    | none => s
  let s := if b.tracer then Storage.traced s else s
  if b.metrics then Storage.metriced s else s

/-- The decorator layers of a storage value, outermost first. -/
def Storage.layers : Storage → List String
  | .base _ _ => []
  | .reconnectable s _ => "Reconnectable" :: s.layers
  | .traced s => "Traced" :: s.layers
  | .metriced s => "Metriced" :: s.layers

/-- One metric emission of the `Metriced` decorator. -/
inductive MetricEvent where
  | counterInc (metric : String) (labels : List String)
  | histogramObserve (metric : String) (labels : List String)
deriving Repr, DecidableEq

/-- Model of `Metriced.record` (`metrics.go`): labels are
`[name, type, operation]`; the operations counter
(`storage_operations_total`) is always incremented, the duration histogram
(`storage_operation_seconds`) always observes the elapsed time, and the
errors counter (`storage_errors_total`) is incremented exactly when the
wrapped call returned a non-nil error. -/
def metricedRecord (op : String) (name typ : String) (err : Option GoError) :
    List MetricEvent :=
  let labels := [name, typ, op]
  [MetricEvent.counterInc "storage_operations_total" labels,
   MetricEvent.histogramObserve "storage_operation_seconds" labels]
  ++ (if err.isSome then
        [MetricEvent.counterInc "storage_errors_total" labels] else [])

/-- Model of `Metriced.Connect` / `Ping` / `Close` with operation name
`op`: call the wrapped method (outcome `innerErr`), record metrics, and
return the wrapped outcome unchanged. -/
def metricedCall (op : String) (name typ : String)
    (innerErr : Option GoError) : Option GoError × List MetricEvent :=
  (innerErr, metricedRecord op name typ innerErr)

/-- Model of the `manager` struct of `manager.go`: the name-indexed map
(as an association list; only `lookup` semantics is used) and the ordered
name list. -/
structure Mgr where
  storages : List (String × Storage)
  order : List String

/-- Model of `NewManager`. -/
def newManager : Mgr :=
  ⟨[], []⟩

/-- Model of `manager.Register`: reject an already-present name with a
duplicate error leaving the manager unchanged, otherwise insert into the
map and append the name to the order list. -/
def Mgr.register (m : Mgr) (s : Storage) : Option GoError × Mgr :=
  let name := s.name
  if (m.storages.lookup name).isSome then
    (some (.new ("storage \"" ++ name ++ "\" already registered")), m)
  else
    (none, ⟨(name, s) :: m.storages, m.order ++ [name]⟩)

/-- Model of `manager.Get`. -/
def Mgr.get (m : Mgr) (name : String) : Option Storage :=
  m.storages.lookup name

/-- Model of `manager.List`: a copy of the order list. -/
def Mgr.list (m : Mgr) : List String :=
  m.order

/-! ## Correctness of the substring matcher -/

/-- The prefix test `leadsWith` is correct: `sub` passes against `s`
exactly when `s` extends `sub`. -/
theorem leadsWith_iff (sub s : List Char) :
    leadsWith sub s = true ↔ ∃ rest, s = sub ++ rest := by
  induction sub generalizing s with
  | nil =>
    simp [leadsWith]
  | cons c cs ih =>
    cases s with
    | nil =>
      simp [leadsWith]
    | cons d ds =>
      simp only [leadsWith, Bool.and_eq_true, beq_iff_eq, ih,
        List.cons_append, List.cons.injEq]
      constructor
      · rintro ⟨rfl, rest, rfl⟩
        exact ⟨rest, rfl, rfl⟩
      · rintro ⟨rest, h1, h2⟩
        exact ⟨h1.symm, rest, h2⟩

/-- The containment test `subIn` is correct: `sub` occurs in `s` exactly
when `s` splits as `pre ++ sub ++ post`. -/
theorem subIn_iff (sub s : List Char) :
    subIn sub s = true ↔ ∃ pre post, s = pre ++ (sub ++ post) := by
  induction s with
  | nil =>
    simp only [subIn, List.isEmpty_iff]
    constructor
    · rintro rfl
      exact ⟨[], [], rfl⟩
    · rintro ⟨pre, post, h⟩
      rcases List.append_eq_nil.1 h.symm with ⟨rfl, h2⟩
      rcases List.append_eq_nil.1 h2 with ⟨rfl, rfl⟩
      rfl
  | cons c t ih =>
    simp only [subIn, Bool.or_eq_true, leadsWith_iff, ih]
    constructor
    · rintro (⟨rest, h⟩ | ⟨pre, post, rfl⟩)
      · exact ⟨[], rest, by simpa using h⟩
      · exact ⟨c :: pre, post, rfl⟩
    · rintro ⟨pre, post, h⟩
      cases pre with
      | nil =>
        exact Or.inl ⟨post, by simpa using h⟩
      | cons p ps =>
        rw [List.cons_append] at h
        injection h with h1 h2
        exact Or.inr ⟨ps, post, h2⟩

/-- Go `strings.Contains` in terms of a decomposition of the character
data. -/
theorem strContains_iff (s sub : String) :
    strContains s sub = true ↔
      ∃ pre post, s.data = pre ++ (sub.data ++ post) :=
  subIn_iff sub.data s.data

/-! ## Behaviour of the retry loop -/

/-- Helper: with a never-cancelled context and a wrapped `Connect` that
fails on every call, the loop started at any reachable `attempt` exhausts
all remaining attempts and returns the retry-exhausted error wrapping the
error of the last attempt, having made `maxRetries + 1` calls in total. -/
theorem connectWithRetryAux_allFail (inner : Nat → Option GoError)
    (ctxErr : GoError) (m : Int) (hm : 0 ≤ m) (e : Nat → GoError)
    (hinner : ∀ k, inner k = some (e k)) :
    ∀ (a : Nat) (le : Option GoError), (a : Int) ≤ m + 1 →
      connectWithRetryAux inner (fun _ => false) ctxErr m a le =
        (some (.wrapf ("connect failed after " ++ toString (m + 1)
            ++ " attempts")
          (if (a : Int) ≤ m then some (e m.toNat) else le)), m.toNat + 1) := by
  have H : ∀ (d : Nat) (a : Nat) (le : Option GoError),
      (m + 1 - (a : Int)).toNat = d → (a : Int) ≤ m + 1 →
      connectWithRetryAux inner (fun _ => false) ctxErr m a le =
        (some (.wrapf ("connect failed after " ++ toString (m + 1)
            ++ " attempts")
          (if (a : Int) ≤ m then some (e m.toNat) else le)), m.toNat + 1) := by
    intro d
    induction d with
    | zero =>
      intro a le hd ha
      have hma : ¬ (a : Int) ≤ m := by omega
      have haeq : a = m.toNat + 1 := by omega
      rw [connectWithRetryAux, dif_neg hma, if_neg hma, haeq]
    | succ d ih =>
      intro a le hd ha
      have hma : (a : Int) ≤ m := by omega
      rw [connectWithRetryAux, dif_pos hma, if_neg (by simp), hinner a]
      show connectWithRetryAux inner (fun _ => false) ctxErr m (a + 1)
        (some (e a)) = _
      rw [ih (a + 1) (some (e a)) (by omega) (by omega)]
      by_cases h1 : ((a : Int) + 1) ≤ m
      · rw [if_pos (by exact_mod_cast h1), if_pos hma]
      · have ham : a = m.toNat := by omega
        rw [if_neg (by exact_mod_cast h1), if_pos hma, ham]
  intro a le ha
  exact H (m + 1 - (a : Int)).toNat a le rfl ha

/-- Helper: if every attempt before `k` fails, the context is not found
cancelled during the waits before attempts `1..k-1` but is cancelled during
the wait before attempt `k` (with `1 ≤ k ≤ maxRetries`), then the loop
started at any `a ≤ k` returns the context error having made exactly `k`
calls on the wrapped `Connect`. -/
theorem connectWithRetryAux_cancel (inner : Nat → Option GoError)
    (ctxDone : Nat → Bool) (ctxErr : GoError) (m : Int) (k : Nat)
    (hk1 : 1 ≤ k) (hk2 : (k : Int) ≤ m)
    (hfail : ∀ j, j < k → inner j ≠ none)
    (hnc : ∀ j, 0 < j → j < k → ctxDone j = false)
    (hd : ctxDone k = true) :
    ∀ (a : Nat) (le : Option GoError), a ≤ k →
      connectWithRetryAux inner ctxDone ctxErr m a le = (some ctxErr, k) := by
  have H : ∀ (d : Nat) (a : Nat) (le : Option GoError), k - a = d → a ≤ k →
      connectWithRetryAux inner ctxDone ctxErr m a le = (some ctxErr, k) := by
    intro d
    induction d with
    | zero =>
      intro a le hrem ha
      have hak : a = k := by omega
      subst hak
      rw [connectWithRetryAux, dif_pos (by omega),
        if_pos (by simp [hd]; omega)]
    | succ d ih =>
      intro a le hrem ha
      have hak : a < k := by omega
      have hcond : ¬ ((decide (a > 0) && ctxDone a) = true) := by
        rcases Nat.eq_zero_or_pos a with h0 | h0
        · simp [h0]
        · simp [hnc a h0 hak]
      rcases Option.ne_none_iff_exists.1 (hfail a hak) with ⟨ea, hea⟩
      rw [connectWithRetryAux, dif_pos (by omega), if_neg hcond, ← hea]
      exact ih (a + 1) (some ea) (by omega) (by omega)
  intro a le ha
  exact H (k - a) a le rfl ha

/-- Helper: with a negative `MaxRetries` the loop body is never entered:
no call is made on the wrapped `Connect`, and the retry-exhausted error is
returned with `lastErr = nil` and the attempt count `maxRetries + 1` in its
message. -/
theorem connectWithRetry_neg (cfg : ReconnectConfig) (ctxDone : Nat → Bool)
    (ctxErr : GoError) (inner : Nat → Option GoError)
    (hm : cfg.maxRetries < 0) :
    connectWithRetry cfg ctxDone ctxErr inner =
      (some (.wrapf ("connect failed after " ++ toString (cfg.maxRetries + 1)
        ++ " attempts") none), 0) := by
  rw [connectWithRetry, connectWithRetryAux, dif_neg (by omega)]

/-! ## Claims -/

/-- C1: with `MaxRetries = n ≥ 0` and a never-cancelled context,
`Reconnectable.Connect` over an inner resource whose `Connect` always
fails makes exactly `n + 1` attempts on the wrapped resource and returns
the retry-exhausted error wrapping the last underlying failure, with the
attempt count `n + 1` in its message; over an inner resource that succeeds
on the first call it makes exactly 1 attempt and returns `nil`. -/
theorem C1_reconnect_attempts (cfg : ReconnectConfig) (n : Nat)
    (hn : cfg.maxRetries = (n : Int)) (ctxErr : GoError)
    (inner : Nat → Option GoError) (e : Nat → GoError) :
    ((∀ k, inner k = some (e k)) →
      connectWithRetry cfg (fun _ => false) ctxErr inner =
        (some (.wrapf ("connect failed after " ++ toString ((n : Int) + 1)
          ++ " attempts") (some (e n))), n + 1) ∧
      (GoError.wrapf ("connect failed after " ++ toString ((n : Int) + 1)
          ++ " attempts") (some (e n))).unwrapped = some (e n)) ∧
    (inner 0 = none →
      connectWithRetry cfg (fun _ => false) ctxErr inner = (none, 1)) := by
  constructor
  · intro hinner
    refine ⟨?_, rfl⟩
    rw [connectWithRetry, hn,
      connectWithRetryAux_allFail inner ctxErr (n : Int) (by omega) e hinner 0
        none (by omega)]
    rw [if_pos (by omega)]
    simp
  · intro h0
    rw [connectWithRetry, hn, connectWithRetryAux, dif_pos (by omega),
      if_neg (by simp), h0]

/-- Witness for C1: with `MaxRetries = 2` and a permanently failing inner
resource, exactly 3 attempts are made and the exhausted error wraps the
last failure; with an inner resource succeeding immediately, one attempt
and a `nil` error. -/
theorem C1_reconnect_attempts_witness :
    connectWithRetry ⟨2, 0, 0, 2.0⟩ (fun _ => false) (.new "ctx")
        (fun _ => some (.new "boom")) =
      (some (.wrapf ("connect failed after " ++ toString ((2 : Int) + 1)
        ++ " attempts") (some (.new "boom"))), 3) ∧
    connectWithRetry ⟨2, 0, 0, 2.0⟩ (fun _ => false) (.new "ctx")
        (fun _ => none) =
      (none, 1) :=
  ⟨((C1_reconnect_attempts ⟨2, 0, 0, 2.0⟩ 2 rfl (.new "ctx")
      (fun _ => some (.new "boom")) (fun _ => .new "boom")).1
      (fun _ => rfl)).1,
   (C1_reconnect_attempts ⟨2, 0, 0, 2.0⟩ 2 rfl (.new "ctx")
      (fun _ => none) (fun _ => .new "boom")).2 rfl⟩

/-- C8: if every attempt before `k` failed and the context is found
cancelled during the backoff wait that precedes attempt `k`
(`1 ≤ k ≤ MaxRetries`), `Reconnectable.Connect` returns the context error
unchanged and the pending attempt is not made: exactly `k` calls were made
on the wrapped resource. -/
theorem C8_cancel_during_wait (cfg : ReconnectConfig) (ctxDone : Nat → Bool)
    (ctxErr : GoError) (inner : Nat → Option GoError) (k : Nat)
    (hk1 : 1 ≤ k) (hk2 : (k : Int) ≤ cfg.maxRetries)
    (hfail : ∀ j, j < k → inner j ≠ none)
    (hnc : ∀ j, 0 < j → j < k → ctxDone j = false)
    (hd : ctxDone k = true) :
    connectWithRetry cfg ctxDone ctxErr inner = (some ctxErr, k) := by
  rw [connectWithRetry]
  exact connectWithRetryAux_cancel inner ctxDone ctxErr cfg.maxRetries k hk1
    hk2 hfail hnc hd 0 none (by omega)

/-- Witness for C8: with `MaxRetries = 2`, a failing first attempt and a
context cancelled during the first backoff wait, the context error is
returned after exactly 1 attempt. -/
theorem C8_cancel_during_wait_witness :
    connectWithRetry ⟨2, 0, 0, 2.0⟩ (fun j => decide (j = 1))
        (.new "context canceled") (fun _ => some (.new "boom")) =
      (some (.new "context canceled"), 1) :=
  C8_cancel_during_wait ⟨2, 0, 0, 2.0⟩ (fun j => decide (j = 1))
    (.new "context canceled") (fun _ => some (.new "boom")) 1
    (by decide) (by decide)
    (fun j hj => by simp)
    (fun j hj1 hj2 => (by omega : False).elim)
    (by decide)

/-- C10 counterexample: for `MaxRetries = -2` (negative, as the claim
allows) the returned error message states the attempt count `-1`, not `0`
as the claim words it: the message does not contain the claimed phrase
"connect failed after 0 attempts". -/
theorem C10_counterexample :
    connectWithRetry ⟨-2, 0, 0, 2.0⟩ (fun _ => false) (.new "ctx")
        (fun _ => some (.new "boom")) =
      (some (.wrapf "connect failed after -1 attempts" none), 0) ∧
    strContains
        (GoError.Error (.wrapf "connect failed after -1 attempts" none))
        "connect failed after 0 attempts" = false := by
  refine ⟨?_, by decide⟩
  rw [connectWithRetry_neg ⟨-2, 0, 0, 2.0⟩ (fun _ => false) (.new "ctx")
    (fun _ => some (.new "boom")) (by decide)]
  rfl

/-- C10 (amended): if `MaxRetries` is negative, `Reconnectable.Connect`
makes zero attempts on the wrapped resource yet returns a non-nil
retry-exhausted error that wraps no underlying error and states the
attempt count `MaxRetries + 1` (which is `0` exactly when
`MaxRetries = -1`); `NewReconnectable` does not adjust `MaxRetries`. -/
theorem C10_negative_retries (cfg : ReconnectConfig)
    (hm : cfg.maxRetries < 0) (ctxDone : Nat → Bool) (ctxErr : GoError)
    (inner : Nat → Option GoError) :
    connectWithRetry cfg ctxDone ctxErr inner =
      (some (.wrapf ("connect failed after " ++ toString (cfg.maxRetries + 1)
        ++ " attempts") none), 0) ∧
    (newReconnectable cfg).config.maxRetries = cfg.maxRetries := by
  refine ⟨connectWithRetry_neg cfg ctxDone ctxErr inner hm, ?_⟩
  rw [newReconnectable]
  split <;> rfl

/-- Witness for C10: at `MaxRetries = -1` zero attempts are made and the
non-nil exhausted error wraps nothing. -/
theorem C10_negative_retries_witness :
    connectWithRetry ⟨-1, 0, 0, 2.0⟩ (fun _ => false) (.new "ctx")
        (fun _ => some (.new "boom")) =
      (some (.wrapf ("connect failed after " ++ toString ((-1 : Int) + 1)
        ++ " attempts") none), 0) ∧
    (newReconnectable ⟨-1, 0, 0, 2.0⟩).config.maxRetries = -1 :=
  C10_negative_retries ⟨-1, 0, 0, 2.0⟩ (by decide) (fun _ => false)
    (.new "ctx") (fun _ => some (.new "boom"))

/-- C6: `isConnectionError` is false on `nil`; on a non-nil error it is
true exactly when the lower-cased message contains one of the seven fixed
keywords as a contiguous substring; "connection refused" and "EOF" are
classified transient, "some other error" is not. -/
theorem C6_isConnectionError_spec :
    isConnectionError none = false ∧
    (∀ e : GoError, isConnectionError (some e) = true ↔
      ∃ kw ∈ connKeywords, ∃ pre post,
        (goToLower e.Error).data = pre ++ (kw.data ++ post)) ∧
    isConnectionError (some (.new "connection refused")) = true ∧
    isConnectionError (some (.new "EOF")) = true ∧
    isConnectionError (some (.new "some other error")) = false := by
  refine ⟨rfl, ?_, by decide, by decide, by decide⟩
  intro e
  simp only [isConnectionError, List.any_eq_true, strContains_iff]

/-- C5: a first-Ping error not classified as a connection error is returned
unchanged with no close, no reconnect attempt and no Ping retry; a
connection error closes the wrapped resource and runs the retry-backoff
connect sequence, after which the Ping is retried exactly once only if the
reconnect succeeded, a reconnect failure being wrapped as a
ping-failed-reconnect-failed error. -/
theorem C5_ping_self_healing (cfg : ReconnectConfig) (ctxDone : Nat → Bool)
    (ctxErr : GoError) (e : GoError) (innerConnect : Nat → Option GoError)
    (innerPing2 : Option GoError) :
    (isConnectionError (some e) = false →
      reconnectablePing cfg ctxDone ctxErr (some e) innerConnect innerPing2 =
        ⟨false, 0, false, some e⟩) ∧
    (isConnectionError (some e) = true →
      (∀ reconnErr,
        (connectWithRetry cfg ctxDone ctxErr innerConnect).1 =
            some reconnErr →
        reconnectablePing cfg ctxDone ctxErr (some e) innerConnect
            innerPing2 =
          ⟨true, (connectWithRetry cfg ctxDone ctxErr innerConnect).2, false,
            some (.wrapf "ping failed, reconnect failed"
              (some reconnErr))⟩) ∧
      ((connectWithRetry cfg ctxDone ctxErr innerConnect).1 = none →
        reconnectablePing cfg ctxDone ctxErr (some e) innerConnect
            innerPing2 =
          ⟨true, (connectWithRetry cfg ctxDone ctxErr innerConnect).2, true,
            innerPing2⟩)) ∧
    reconnectablePing cfg ctxDone ctxErr none innerConnect innerPing2 =
      ⟨false, 0, false, none⟩ := by
  refine ⟨?_, ?_, rfl⟩
  · intro hnc
    rw [reconnectablePing, if_neg (by simp [hnc])]
  · intro hc
    constructor
    · intro reconnErr hre
      rw [reconnectablePing, if_pos hc]
      simp only [hre]
    · intro hre
      rw [reconnectablePing, if_pos hc]
      simp only [hre]

/-- Witness for C5: an authorization-style error is passed through
untouched; a connection-refused error over an inner resource that
reconnects on its first attempt leads to exactly one Ping retry. -/
theorem C5_ping_self_healing_witness :
    reconnectablePing ⟨2, 0, 0, 2.0⟩ (fun _ => false) (.new "ctx")
        (some (.new "auth denied")) (fun _ => none) none =
      ⟨false, 0, false, some (.new "auth denied")⟩ ∧
    reconnectablePing ⟨2, 0, 0, 2.0⟩ (fun _ => false) (.new "ctx")
        (some (.new "connection refused")) (fun _ => none) none =
      ⟨true, 1, true, none⟩ := by
  have hcr : connectWithRetry ⟨2, 0, 0, 2.0⟩ (fun _ => false) (.new "ctx")
      (fun _ => none) = (none, 1) := by
    rw [connectWithRetry, connectWithRetryAux, dif_pos (by decide),
      if_neg (by simp)]
  constructor
  · exact (C5_ping_self_healing ⟨2, 0, 0, 2.0⟩ (fun _ => false) (.new "ctx")
      (.new "auth denied") (fun _ => none) none).1 (by decide)
  · have h := ((C5_ping_self_healing ⟨2, 0, 0, 2.0⟩ (fun _ => false)
      (.new "ctx") (.new "connection refused") (fun _ => none) none).2.1
      (by decide)).2 (by rw [hcr])
    rw [hcr] at h
    exact h

/-- C2: the adapter `Connect` (modelled on the redis adapter, the cited
instance of the shared pattern) succeeds only from `Disconnected`: a CAS
failure returns the invalid-state error without attempting any I/O and
leaves the state unchanged, success of the whole call requires the initial
state `Disconnected` and ends in `Connected`, and every I/O failure after a
successful CAS reverts the state to `Disconnected` instead of leaving it at
`Connecting`. -/
theorem C2_connect_state_machine (st : State) (hasTracer : Bool)
    (tracingRes pingRes : Option GoError) :
    (st ≠ .disconnected →
      redisConnect st hasTracer tracingRes pingRes =
        ⟨some (.new "redis: invalid state for connect"), st, false⟩) ∧
    ((redisConnect st hasTracer tracingRes pingRes).err = none →
      st = .disconnected ∧
      (redisConnect st hasTracer tracingRes pingRes).finalState =
        .connected) ∧
    (st = .disconnected →
      (redisConnect st hasTracer tracingRes pingRes).err ≠ none →
      (redisConnect st hasTracer tracingRes pingRes).finalState =
        .disconnected) := by
  rcases st <;> rcases hasTracer <;> rcases tracingRes <;>
    rcases pingRes <;> simp [redisConnect]

/-- Witness for C2: from `Connected` the CAS fails and the invalid-state
error is returned without I/O; a ping failure from `Disconnected` reverts
the state to `Disconnected`; a clean run from `Disconnected` ends
`Connected`. -/
theorem C2_connect_state_machine_witness :
    redisConnect .connected true none none =
      ⟨some (.new "redis: invalid state for connect"), .connected, false⟩ ∧
    (redisConnect .disconnected false none
        (some (.new "boom"))).finalState = .disconnected ∧
    State.disconnected = .disconnected ∧
    (redisConnect .disconnected false none none).finalState = .connected :=
  ⟨(C2_connect_state_machine .connected true none none).1 (by decide),
   (C2_connect_state_machine .disconnected false none
      (some (.new "boom"))).2.2 rfl (by simp [redisConnect]),
   ((C2_connect_state_machine .disconnected false none none).2.1 rfl).1,
   ((C2_connect_state_machine .disconnected false none none).2.1 rfl).2⟩

/-- C3: for every base resource and every subset of the three decorators,
`Build` layers the requested decorators in the fixed order — innermost the
resource, then `Reconnectable`, then `Traced`, then `Metriced` outermost —
and the module-level `Unwrap` of the built value returns exactly the
original resource. -/
theorem C3_build_order_unwrap (name typ : String)
    (rc : Option ReconnectConfig) (tr mt : Bool) :
    (Builder.build ⟨.base name typ, rc, tr, mt⟩).layers =
      (if mt then ["Metriced"] else []) ++
        ((if tr then ["Traced"] else []) ++
          (if rc.isSome then ["Reconnectable"] else [])) ∧
    unwrapStorage (Builder.build ⟨.base name typ, rc, tr, mt⟩) =
      .base name typ := by
  rcases rc <;> rcases tr <;> rcases mt <;>
    simp [Builder.build, Storage.layers, unwrapStorage]

/-- C9: the module-level `Unwrap` is the identity on every storage that is
not one of the three decorator types, it is idempotent, and its result is
never itself a decorator. -/
theorem C9_unwrap_idempotent (s : Storage) :
    (s.isDecorator = false → unwrapStorage s = s) ∧
    unwrapStorage (unwrapStorage s) = unwrapStorage s ∧
    (unwrapStorage s).isDecorator = false := by
  induction s with
  | base n t => exact ⟨fun _ => rfl, rfl, rfl⟩
  | reconnectable s cfg ih => exact ⟨fun h => by simp [Storage.isDecorator] at h, ih.2.1, ih.2.2⟩
  | traced s ih => exact ⟨fun h => by simp [Storage.isDecorator] at h, ih.2.1, ih.2.2⟩
  | metriced s ih => exact ⟨fun h => by simp [Storage.isDecorator] at h, ih.2.1, ih.2.2⟩

/-- Witness for C9: identity on a bare resource and idempotence on a
doubly decorated one. -/
theorem C9_unwrap_idempotent_witness :
    unwrapStorage (.base "a" "mysql") = .base "a" "mysql" ∧
    unwrapStorage (unwrapStorage (.metriced (.traced (.base "a" "mysql")))) =
      unwrapStorage (.metriced (.traced (.base "a" "mysql"))) ∧
    (unwrapStorage
      (.metriced (.traced (.base "a" "mysql")))).isDecorator = false :=
  ⟨(C9_unwrap_idempotent (.base "a" "mysql")).1 rfl,
   (C9_unwrap_idempotent (.metriced (.traced (.base "a" "mysql")))).2.1,
   (C9_unwrap_idempotent (.metriced (.traced (.base "a" "mysql")))).2.2⟩

/-- C4 counterexample: a successful `Metriced.Connect` call increments the
operations counter with labels exactly `[name, type, operation]` — no
fourth `outcome` label, and no "success" or "error" label value appears —
refuting the claimed `{name, kind, operation, outcome}` counter labelling. -/
theorem C4_counterexample :
    metricedCall "connect" "r" "redis" none =
      (none,
        [.counterInc "storage_operations_total" ["r", "redis", "connect"],
         .histogramObserve "storage_operation_seconds"
           ["r", "redis", "connect"]]) ∧
    "success" ∉ (["r", "redis", "connect"] : List String) ∧
    "error" ∉ (["r", "redis", "connect"] : List String) :=
  ⟨rfl, by decide, by decide⟩

/-- C4 (amended): each `Metriced` lifecycle call increments the operations
counter labeled `[name, type, operation]`, observes the duration histogram
labeled `[name, type, operation]`, increments the separate errors counter
(same labels) exactly when the wrapped call returned a non-nil error, and
returns the wrapped error unchanged. -/
theorem C4_metrics_record (op name typ : String) (err : Option GoError) :
    (metricedCall op name typ err).1 = err ∧
    MetricEvent.counterInc "storage_operations_total" [name, typ, op] ∈
      (metricedCall op name typ err).2 ∧
    MetricEvent.histogramObserve "storage_operation_seconds"
        [name, typ, op] ∈ (metricedCall op name typ err).2 ∧
    (MetricEvent.counterInc "storage_errors_total" [name, typ, op] ∈
        (metricedCall op name typ err).2 ↔ err ≠ none) := by
  rcases err <;> simp [metricedCall, metricedRecord]

/-- C7: registering a storage whose name is already present returns the
duplicate-name error and leaves the manager — map and order list — fully
unchanged, so the first registration stays active; registering a fresh
name inserts it into the map and appends it to the order list, so `List`
reports names in registration order. -/
theorem C7_register_duplicate (m : Mgr) (s : Storage) :
    ((m.storages.lookup s.name).isSome = true →
      Mgr.register m s =
        (some (.new ("storage \"" ++ s.name ++ "\" already registered")),
          m) ∧
      (Mgr.register m s).2.list = m.list ∧
      (Mgr.register m s).2.get s.name = m.get s.name) ∧
    ((m.storages.lookup s.name).isSome = false →
      Mgr.register m s =
        (none, ⟨(s.name, s) :: m.storages, m.order ++ [s.name]⟩) ∧
      (Mgr.register m s).2.get s.name = some s ∧
      (Mgr.register m s).2.list = m.list ++ [s.name]) := by
  constructor
  · intro h
    simp [Mgr.register, Mgr.list, Mgr.get, h]
  · intro h
    simp [Mgr.register, Mgr.list, Mgr.get, h]

/-- Witness for C7: registering "a" into an empty manager succeeds and
lists ["a"]; registering a second storage named "a" returns the duplicate
error and leaves the manager unchanged. -/
theorem C7_register_duplicate_witness :
    (Mgr.register newManager (.base "a" "mysql")).2.list = [] ++ ["a"] ∧
    Mgr.register (Mgr.register newManager (.base "a" "mysql")).2
        (.base "a" "redis") =
      (some (.new "storage \"a\" already registered"),
        (Mgr.register newManager (.base "a" "mysql")).2) ∧
    (Mgr.register (Mgr.register newManager (.base "a" "mysql")).2
        (.base "a" "redis")).2.get "a" =
      (Mgr.register newManager (.base "a" "mysql")).2.get "a" :=
  ⟨((C7_register_duplicate newManager (.base "a" "mysql")).2 rfl).2.2,
   ((C7_register_duplicate (Mgr.register newManager (.base "a" "mysql")).2
      (.base "a" "redis")).1 (by decide)).1,
   ((C7_register_duplicate (Mgr.register newManager (.base "a" "mysql")).2
      (.base "a" "redis")).1 (by decide)).2.2⟩

end Higo
